import Mathlib

/-!
Verification of the RSVP intake service (`src/server/main.go`).

Go strings are modelled as `List Char` (runes); `len` on a Go string is the
UTF-8 byte length, modelled by `utf8Len`.  JSON files backing the stores are
modelled by `JsonFile`: `absent` (missing file), `corrupt` (present but
undecodable), `good v` (decodes to `v`).  File writes are assumed to succeed;
`Except Unit` models the error return value of each Go function.
-/

set_option maxHeartbeats 1000000

set_option linter.unusedVariables false

/-- Model of Go `unicode.IsSpace` restricted to the Latin-1 range actually
relevant here: `'\t' '\n' '\v' '\f' '\r' ' ' U+0085 U+00A0`. -/
def isGoSpace (c : Char) : Bool :=
  c.toNat = 32 ∨ c.toNat = 9 ∨ c.toNat = 10 ∨ c.toNat = 11 ∨
  c.toNat = 12 ∨ c.toNat = 13 ∨ c.toNat = 133 ∨ c.toNat = 160

/-- ASCII digit test, from `r >= '0' && r <= '9'` in `normalizePhone`. -/
def isDigitChar (c : Char) : Bool :=
  48 ≤ c.toNat ∧ c.toNat ≤ 57

/-- Model of Go `strings.ToLower` on one rune, restricted to ASCII case
mapping (the emails in the claims are ASCII; full Unicode simple case
mapping is irrelevant to them). -/
def charToLower (c : Char) : Char :=
  if 65 ≤ c.toNat ∧ c.toNat ≤ 90 then Char.ofNat (c.toNat + 32) else c

/-- Model of Go `strings.ToLower`. -/
def goToLower (s : List Char) : List Char :=
  s.map charToLower

/-- Model of Go `strings.TrimSpace`: drop whitespace from both ends. -/
def goTrim (s : List Char) : List Char :=
  (s.dropWhile isGoSpace).rdropWhile isGoSpace

/-- UTF-8 byte length of a Go string (`len(s)` in Go). -/
def utf8Len (s : List Char) : Nat :=
  (s.map Char.utf8Size).sum

/-- `normalizePhone` from `main.go` (lines 216-224): keep only ASCII digits. -/
def normalizePhone (phone : List Char) : List Char :=
  phone.filter isDigitChar

/-- Normalized form of an email used by the reminder sent-set:
`strings.TrimSpace(strings.ToLower(e))` (lines 326, 339, 342, 739). -/
def normEmail (e : List Char) : List Char :=
  goTrim (goToLower e)

/-- State of a JSON-backed store file. -/
inductive JsonFile (α : Type) where
  | absent : JsonFile α
  | corrupt : JsonFile α
  | good (val : α) : JsonFile α
deriving DecidableEq

/-- `tgUser` from `main.go` (lines 33-37). -/
structure tgUser where
  chatID : Int
  phone : List Char
  name : List Char
deriving DecidableEq

/-- `storedRSVP` from `main.go` (lines 233-239). -/
structure storedRSVP where
  name : List Char
  phone : List Char
  email : List Char
  telegramChatID : Option Int
  atStr : List Char
deriving DecidableEq

/-- `tgUserStore.load` (lines 78-91): missing file is empty, undecodable
file is an error. -/
def tgUserStore.load : JsonFile (List tgUser) → Except Unit (List tgUser)
  | .absent => .ok []
  | .corrupt => .error ()
  | .good us => .ok us

/-- `tgUserStore.get` (lines 39-53): on load error report not-found,
otherwise return the first user whose normalized phone equals the
normalized query phone. -/
def tgUserStore.get (f : JsonFile (List tgUser)) (phone : List Char) : Option tgUser :=
  match tgUserStore.load f with
  | .error _ => none
  | .ok users => users.find? (fun u => normalizePhone u.phone == normalizePhone phone)

/-- The scan inside `tgUserStore.save` (lines 64-74): replace the first
user whose RAW stored phone equals the given (normalized) key, else append. -/
def saveScan (users : List tgUser) (user : tgUser) (key : List Char) : List tgUser :=
  match users with
  | [] => [user]
  | u :: rest => if u.phone = key then user :: rest else u :: saveScan rest user key

/-- `tgUserStore.save` (lines 55-76): load, upsert by comparing the stored
raw phone against `normalizePhone user.phone`, persist. -/
def tgUserStore.save (f : JsonFile (List tgUser)) (user : tgUser) :
    Except Unit (JsonFile (List tgUser)) :=
  match tgUserStore.load f with
  | .error e => .error e
  | .ok users => .ok (.good (saveScan users user (normalizePhone user.phone)))

/-- `tgUserStore.list` (lines 103-107): load under the lock. -/
def tgUserStore.list (f : JsonFile (List tgUser)) : Except Unit (List tgUser) :=
  tgUserStore.load f

/-- `rsvpStore.append` (lines 270-286): read the file, ignore read and
decode errors (so a missing or corrupt file starts from the empty list),
append, persist.  Marshalling cannot fail for this type and the write is
assumed to succeed, so no error is returned. -/
def rsvpStore.append (f : JsonFile (List storedRSVP)) (entry : storedRSVP) :
    Except Unit (JsonFile (List storedRSVP)) :=
  let list := match f with
    | .good l => l
    | _ => []
  .ok (.good (list ++ [entry]))

/-- `rsvpStore.list` (lines 288-303): missing file is empty, undecodable
file is an error. -/
def rsvpStore.list : JsonFile (List storedRSVP) → Except Unit (List storedRSVP)
  | .absent => .ok []
  | .corrupt => .error ()
  | .good l => .ok l

/-- `reminderSentStore.list` (lines 310-329): missing file is the empty
set, undecodable file is an error; every stored entry is keyed by its
trimmed, lower-cased form. -/
def reminderSentStore.list : JsonFile (List (List Char)) → Except Unit (List (List Char))
  | .absent => .ok []
  | .corrupt => .error ()
  | .good l => .ok (l.map normEmail)

/-- The appending loop of `reminderSentStore.add` (lines 341-347): for each
email, normalize; append it if non-empty and not yet seen. -/
def addEmailsAux (lst : List (List Char)) (seen : List (List Char)) :
    List (List Char) → List (List Char)
  | [] => lst
  | e :: rest =>
    if normEmail e ≠ [] ∧ ¬ seen.contains (normEmail e) then
      addEmailsAux (lst ++ [normEmail e]) (normEmail e :: seen) rest
    else
      addEmailsAux lst seen rest

/-- Raw contents a store's read-ignoring-errors path starts from
(`data, _ := os.ReadFile; _ = json.Unmarshal`). -/
def fileList {α : Type} : JsonFile (List α) → List α
  | .good l => l
  | _ => []

/-- `reminderSentStore.add` (lines 331-355): read ignoring errors, seed the
seen-set with the normalized existing entries, append the new normalized
emails, persist.  No error is returned on a corrupt or missing file. -/
def reminderSentStore.add (f : JsonFile (List (List Char))) (emails : List (List Char)) :
    Except Unit (JsonFile (List (List Char))) :=
  let lst := fileList f
  .ok (.good (addEmailsAux lst (lst.map normEmail) emails))

/-- `rateLimitNum` (line 23). -/
def rateLimitNum : Nat := 5

/-- `rateLimitWindow` (line 24): one minute, in nanoseconds. -/
def rateLimitWindow : Int := 60000000000

/-- The limiter's `counts` map, as an association list. -/
abbrev LimiterMap : Type := List (List Char × List Int)

/-- Go map read `r.counts[ip]` (missing key yields the empty list). -/
def lookupTimes (m : LimiterMap) (ip : List Char) : List Int :=
  match List.find? (fun p => p.1 == ip) m with
  | some p => p.2
  | none => []

/-- Go map write `r.counts[ip] = ts`. -/
def setTimes (m : LimiterMap) (ip : List Char) (ts : List Int) : LimiterMap :=
  match m with
  | [] => [(ip, ts)]
  | (k, v) :: rest => if k = ip then (ip, ts) :: rest else (k, v) :: setTimes rest ip ts

/-- `rsvpLimiter.allow` (lines 246-263): keep the timestamps strictly after
`now - window`; reject without recording if at least `rateLimitNum` remain,
otherwise record `now` over the pruned list and accept. -/
def rsvpLimiter.allow (m : LimiterMap) (ip : List Char) (now : Int) : Bool × LimiterMap :=
  let cut := now - rateLimitWindow
  let kept := (lookupTimes m ip).filter (fun t => cut < t)
  if rateLimitNum ≤ kept.length then (false, m)
  else (true, setTimes m ip (kept ++ [now]))

/-- A sequence of `allow` calls for one key at the given times. -/
def allowSeq (m : LimiterMap) (ip : List Char) : List Int → List Bool × LimiterMap
  | [] => ([], m)
  | t :: ts =>
    let r := rsvpLimiter.allow m ip t
    let rest := allowSeq r.2 ip ts
    (r.1 :: rest.1, rest.2)

/-- The decoded body of a `POST /api/rsvp` request (`RSVPRequest`,
lines 226-231). -/
structure RSVPRequest where
  name : List Char
  phone : List Char
  email : List Char
  telegramChatID : Option Int
deriving DecidableEq

/-- The distinct responses of the `/api/rsvp` handler (after JSON decode). -/
inductive RsvpResponse where
  | nameError
  | phoneError
  | emailError
  | tooManyRequests
  | sendFailed
  | okResponse
deriving DecidableEq

/-- Observable outcome of one `/api/rsvp` handler run: the response, the
limiter state afterwards, which outbound dispatches were attempted, whether
the Telegram identity store was written, and the record passed to the
durable append (if the append was attempted). -/
structure HandlerResult where
  response : RsvpResponse
  limiter : LimiterMap
  organizerEmailAttempted : Bool
  guestEmailAttempted : Bool
  tgSaved : Bool
  appended : Option storedRSVP
deriving DecidableEq

/-- The `/api/rsvp` handler (lines 452-584), after JSON decoding.  In
source order: trim the fields; validate name (`len` is UTF-8 bytes), then
phone digits, then email; then consult the rate limiter; then send the
organizer notice (failure is a 500); then best-effort guest email and
Telegram dispatch; then append to the RSVP store with the error discarded
(`_ = store.append(...)`), so `appendOk` does not influence the response. -/
def handleRSVP (req : RSVPRequest) (tgEnabled : Bool) (limiter : LimiterMap)
    (ip : List Char) (now : Int) (atStr : List Char)
    (organizerSendOk : Bool) (appendOk : Bool) : HandlerResult :=
  if goTrim req.name = [] ∨ 200 < utf8Len (goTrim req.name) then
    ⟨.nameError, limiter, false, false, false, none⟩
  else if (normalizePhone (goTrim req.phone)).length < 10 then
    ⟨.phoneError, limiter, false, false, false, none⟩
  else if goTrim req.email ≠ [] ∧
      (254 < utf8Len (goTrim req.email) ∨ ¬ (goTrim req.email).contains '@') then
    ⟨.emailError, limiter, false, false, false, none⟩
  else if (rsvpLimiter.allow limiter ip now).1 = false then
    ⟨.tooManyRequests, (rsvpLimiter.allow limiter ip now).2, false, false, false, none⟩
  else if organizerSendOk = false then
    ⟨.sendFailed, (rsvpLimiter.allow limiter ip now).2, true, false, false, none⟩
  else
    ⟨.okResponse, (rsvpLimiter.allow limiter ip now).2, true, goTrim req.email ≠ [],
      tgEnabled ∧ req.telegramChatID.isSome,
      some ⟨goTrim req.name, goTrim req.phone, goTrim req.email, req.telegramChatID, atStr⟩⟩

/-- The candidate reminder recipients of one firing poll (lines 737-743):
entries whose trimmed, lower-cased email is non-empty and absent from the
sent-set; the dispatched address is the RAW stored email. -/
def batchToSend (l : List storedRSVP) (s : List (List Char)) : List (List Char) :=
  (l.filter (fun r => normEmail r.email ≠ [] ∧ ¬ s.contains (normEmail r.email))).map
    (fun r => r.email)

/-- One firing poll of `runReminderLoop` (lines 724-759), email part: load
both stores (an error in either skips the poll), dispatch one email per
candidate entry, then — only when at least one was attempted — add all
attempted addresses to the sent-set in one write (the `add` error is
discarded, so on error the file is unchanged).  Returns the list of
dispatched addresses and the resulting sent-set file. -/
def firingBatch (rsvpF : JsonFile (List storedRSVP)) (sentF : JsonFile (List (List Char))) :
    Option (List (List Char) × JsonFile (List (List Char))) :=
  match rsvpStore.list rsvpF, reminderSentStore.list sentF with
  | .ok l, .ok s =>
    let toSend := batchToSend l s
    let sentF' :=
      if toSend.isEmpty then sentF
      else
        match reminderSentStore.add sentF toSend with
        | .ok f' => f'
        | .error _ => sentF
    some (toSend, sentF')
  | _, _ => none

/-- `cancelRSVPByChatID` (lines 964-1008): find the identity by chat id
(first match); if none is found, or the found identity's raw phone is the
empty string, return success touching nothing.  Otherwise read the RSVP
file ignoring errors, keep exactly the entries whose normalized phone
differs from the identity's normalized phone, and persist the filtered
list.  The identity store is never written. -/
def cancelRSVPByChatID (rsvpF : JsonFile (List storedRSVP)) (tgF : JsonFile (List tgUser))
    (chatID : Int) :
    Except Unit (JsonFile (List storedRSVP) × JsonFile (List tgUser)) :=
  match tgUserStore.list tgF with
  | .error e => .error e
  | .ok users =>
    let userPhone := match users.find? (fun u => u.chatID == chatID) with
      | some u => u.phone
      | none => []
    if userPhone = [] then .ok (rsvpF, tgF)
    else
      let lst := fileList rsvpF
      let newList := lst.filter (fun r => normalizePhone r.phone ≠ normalizePhone userPhone)
      .ok (.good newList, tgF)

/-- Number of dispatched emails whose normalized form is a given address. -/
def countAddr (ds : List (List Char)) (a : List Char) : Nat :=
  (ds.filter (fun e => normEmail e == a)).length

/-! Helper lemmas about the string primitives. -/

theorem char_toNat_ofNat_lt (n : Nat) (h : n < 55296) : (Char.ofNat n).toNat = n := by
  simp [Char.ofNat, Nat.isValidChar, h, Char.ofNatAux, Char.toNat, UInt32.ofNat',
    UInt32.toNat, BitVec.ofNatLt]

theorem charToLower_toNat (c : Char) :
    (charToLower c).toNat = if 65 ≤ c.toNat ∧ c.toNat ≤ 90 then c.toNat + 32 else c.toNat := by
  unfold charToLower
  by_cases h : 65 ≤ c.toNat ∧ c.toNat ≤ 90
  · simp [h, char_toNat_ofNat_lt (c.toNat + 32) (by omega)]
  · simp [h]

theorem charToLower_idem (c : Char) : charToLower (charToLower c) = charToLower c := by
  unfold charToLower
  by_cases h : 65 ≤ c.toNat ∧ c.toNat ≤ 90
  · simp only [if_pos h]
    rw [if_neg]
    rw [char_toNat_ofNat_lt (c.toNat + 32) (by omega)]
    omega
  · simp [h]

theorem isGoSpace_charToLower (c : Char) : isGoSpace (charToLower c) = isGoSpace c := by
  unfold isGoSpace
  rw [charToLower_toNat]
  by_cases h : 65 ≤ c.toNat ∧ c.toNat ≤ 90
  · simp only [if_pos h]
    simp only [decide_eq_decide]
    omega
  · rw [if_neg h]

theorem dropWhile_map_comm {α β : Type} (f : α → β) (p : β → Bool) (l : List α) :
    (l.map f).dropWhile p = (l.dropWhile (fun a => p (f a))).map f := by
  induction l with
  | nil => rfl
  | cons a l ih =>
    simp only [List.map_cons, List.dropWhile_cons]
    by_cases h : p (f a)
    · simp [h, ih]
    · simp [h]

theorem isGoSpace_comp_charToLower :
    (fun c => isGoSpace (charToLower c)) = isGoSpace :=
  funext isGoSpace_charToLower

theorem goToLower_dropWhile (s : List Char) :
    goToLower (s.dropWhile isGoSpace) = (goToLower s).dropWhile isGoSpace := by
  unfold goToLower
  rw [dropWhile_map_comm, isGoSpace_comp_charToLower]

theorem goToLower_rdropWhile (s : List Char) :
    goToLower (s.rdropWhile isGoSpace) = (goToLower s).rdropWhile isGoSpace := by
  unfold List.rdropWhile
  unfold goToLower
  rw [List.map_reverse]
  congr 1
  rw [← List.map_reverse, dropWhile_map_comm, isGoSpace_comp_charToLower]

theorem goTrim_goToLower_comm (s : List Char) :
    goTrim (goToLower s) = goToLower (goTrim s) := by
  unfold goTrim
  rw [goToLower_rdropWhile, goToLower_dropWhile]

theorem goToLower_idem (s : List Char) : goToLower (goToLower s) = goToLower s := by
  unfold goToLower
  rw [List.map_map]
  apply List.map_congr_left
  intro c _
  exact charToLower_idem c

theorem goTrim_dropWhile_self (s : List Char) :
    (goTrim s).dropWhile isGoSpace = goTrim s := by
  rw [List.dropWhile_eq_self_iff]
  intro hl
  have hpre : goTrim s <+: s.dropWhile isGoSpace := List.rdropWhile_prefix _ _
  have hl2 : 0 < (s.dropWhile isGoSpace).length := lt_of_lt_of_le hl hpre.length_le
  have hmain := List.dropWhile_get_zero_not isGoSpace s hl2
  have e1 : (goTrim s).get ⟨0, hl⟩ = (s.dropWhile isGoSpace).get ⟨0, hl2⟩ := by
    simp only [List.get_eq_getElem]
    exact hpre.getElem hl
  rw [e1]
  exact hmain

theorem goTrim_idem (s : List Char) : goTrim (goTrim s) = goTrim s := by
  have h : goTrim (goTrim s) = ((goTrim s).dropWhile isGoSpace).rdropWhile isGoSpace := rfl
  rw [h, goTrim_dropWhile_self]
  exact List.rdropWhile_idempotent _ _

theorem normEmail_idem (e : List Char) : normEmail (normEmail e) = normEmail e := by
  unfold normEmail
  rw [← goTrim_goToLower_comm, goToLower_idem, goTrim_idem]

/-! Claim C4: append then load. -/

/-- C4: for every RSVP store whose backing file is well-formed or absent,
appending a record and then loading returns exactly the previously loaded
sequence with the new record at the end, in append order. -/
theorem rsvpStore_append_then_list (f : JsonFile (List storedRSVP)) (prev : List storedRSVP)
    (h : rsvpStore.list f = .ok prev) (e : storedRSVP) (f' : JsonFile (List storedRSVP))
    (h' : rsvpStore.append f e = .ok f') :
    rsvpStore.list f' = .ok (prev ++ [e]) := by
  cases f with
  | corrupt => simp [rsvpStore.list] at h
  | absent =>
    simp only [rsvpStore.list, Except.ok.injEq] at h
    simp only [rsvpStore.append, Except.ok.injEq] at h'
    subst h h'
    simp [rsvpStore.list]
  | good l =>
    simp only [rsvpStore.list, Except.ok.injEq] at h
    simp only [rsvpStore.append, Except.ok.injEq] at h'
    subst h h'
    simp [rsvpStore.list]

def c4a : storedRSVP := ⟨"A".toList, "79990000000".toList, [], none, []⟩

def c4b : storedRSVP := ⟨"B".toList, "79991111111".toList, [], none, []⟩

/-- C4 witness: a concrete append observed by the next load. -/
theorem rsvpStore_append_then_list_witness :
    rsvpStore.list (.good [c4a, c4b]) = .ok ([c4a] ++ [c4b]) :=
  rsvpStore_append_then_list (.good [c4a]) [c4a] rfl c4b (.good [c4a, c4b]) rfl

/-! Claim C10: undecodable files are silently overwritten. -/

/-- C10: when the backing file is present but undecodable, `rsvpStore.append`
and `reminderSentStore.add` return no error, behave exactly as if the file
were absent, and persist only the new content, discarding everything the
file previously held. -/
theorem corrupt_file_silently_overwritten (e : storedRSVP) (emails : List (List Char)) :
    rsvpStore.append .corrupt e = .ok (.good [e]) ∧
    rsvpStore.append .corrupt e = rsvpStore.append .absent e ∧
    reminderSentStore.add .corrupt emails = reminderSentStore.add .absent emails ∧
    ∃ l, reminderSentStore.add .corrupt emails = .ok (.good l) :=
  ⟨rfl, rfl, rfl, addEmailsAux [] [] emails, rfl⟩

/-! Claim C2: upsert of a notification identity is not idempotent. -/

def c2user : tgUser := ⟨1, "+79991234567".toList, "A".toList⟩

/-- C2: the code contradicts the claimed invariant: `save` compares the raw
stored phone against the normalized phone of the incoming record, so saving
the very same record twice (raw phone `"+79991234567"`) yields two live
records whose phones normalize to the same non-empty key. -/
theorem tgUserStore_save_duplicates_key :
    tgUserStore.save .absent c2user = .ok (.good [c2user]) ∧
    tgUserStore.save (.good [c2user]) c2user = .ok (.good [c2user, c2user]) ∧
    normalizePhone c2user.phone = "79991234567".toList ∧
    normalizePhone c2user.phone ≠ [] :=
  ⟨rfl, rfl, rfl, by decide⟩

/-! Claim C7: empty normalized phone keys are treated as matches. -/

def c7stored : tgUser := ⟨1, "abc".toList, "N".toList⟩

def c7identity : tgUser := ⟨2, "+++".toList, "X".toList⟩

def c7entry : storedRSVP := ⟨"G".toList, "xyz".toList, [], none, []⟩

/-- C7: the code treats two empty normalized keys as the same contact:
`get` with a phone normalizing to the empty key returns a stored user whose
phone also normalizes to the empty key, and cancellation for an identity
whose phone normalizes to the empty key removes an RSVP entry whose phone
also normalizes to the empty key. -/
theorem empty_normalized_key_matches :
    tgUserStore.get (.good [c7stored]) [] = some c7stored ∧
    normalizePhone c7stored.phone = [] ∧
    cancelRSVPByChatID (.good [c7entry]) (.good [c7identity]) 2 =
      .ok (.good [], .good [c7identity]) ∧
    normalizePhone c7identity.phone = [] ∧
    c7identity.phone ≠ [] ∧
    normalizePhone c7entry.phone = [] :=
  ⟨rfl, rfl, rfl, rfl, by decide, rfl⟩

/-! Claim C3: the sliding-window rate limiter. -/

theorem lookupTimes_setTimes (m : LimiterMap) (ip : List Char) (ts : List Int) :
    lookupTimes (setTimes m ip ts) ip = ts := by
  induction m with
  | nil => simp [setTimes, lookupTimes]
  | cons p rest ih =>
    obtain ⟨k, v⟩ := p
    by_cases h : k = ip
    · subst h
      simp [setTimes, lookupTimes]
    · have hk : ((k, v).1 == ip) = false := by simpa using h
      simp only [setTimes, if_neg h, lookupTimes, List.find?_cons, hk]
      exact ih

theorem allow_of_all_in_window (m : LimiterMap) (ip : List Char) (now : Int) (l : List Int)
    (hl : lookupTimes m ip = l) (hw : ∀ t ∈ l, now - rateLimitWindow < t) :
    rsvpLimiter.allow m ip now =
      if rateLimitNum ≤ l.length then (false, m)
      else (true, setTimes m ip (l ++ [now])) := by
  unfold rsvpLimiter.allow
  rw [hl]
  have hf : List.filter (fun t => decide (now - rateLimitWindow < t)) l = l :=
    List.filter_eq_self.mpr (fun a ha => by simpa using hw a ha)
  simp only [hf]

/-- C3: a call at time `now` returns true and records `now` (over the pruned
list) exactly when, after dropping recorded timestamps at or before
`now - window`, fewer than 5 remain for the key; on rejection nothing is
recorded; in particular the 6th call within one sliding window returns
false and records no timestamp. -/
theorem rsvpLimiter_allow_spec :
    (∀ (m : LimiterMap) (ip : List Char) (now : Int),
      ((rsvpLimiter.allow m ip now).1 = true ↔
        ((lookupTimes m ip).filter (fun t => now - rateLimitWindow < t)).length < rateLimitNum) ∧
      ((rsvpLimiter.allow m ip now).1 = true →
        lookupTimes (rsvpLimiter.allow m ip now).2 ip =
          ((lookupTimes m ip).filter (fun t => now - rateLimitWindow < t)) ++ [now]) ∧
      ((rsvpLimiter.allow m ip now).1 = false → (rsvpLimiter.allow m ip now).2 = m)) ∧
    (∀ (ip : List Char) (t1 t2 t3 t4 t5 t6 : Int),
      t1 ≤ t2 → t2 ≤ t3 → t3 ≤ t4 → t4 ≤ t5 → t5 ≤ t6 → t6 - t1 < rateLimitWindow →
      allowSeq [] ip [t1, t2, t3, t4, t5, t6] =
        ([true, true, true, true, true, false], [(ip, [t1, t2, t3, t4, t5])])) := by
  constructor
  · intro m ip now
    unfold rsvpLimiter.allow
    by_cases h : rateLimitNum ≤
        ((lookupTimes m ip).filter (fun t => now - rateLimitWindow < t)).length
    · simp only [if_pos h]
      refine ⟨?_, ?_, ?_⟩
      · constructor
        · intro hc
          exact absurd hc (by simp)
        · intro hlt
          omega
      · intro hc
        exact absurd hc (by simp)
      · intro _
        trivial
    · simp only [if_neg h]
      refine ⟨?_, ?_, ?_⟩
      · constructor
        · intro _
          omega
        · intro _
          trivial
      · intro _
        exact lookupTimes_setTimes m ip _
      · intro hc
        exact absurd hc (by simp)
  · intro ip t1 t2 t3 t4 t5 t6 h12 h23 h34 h45 h56 hw
    have a1 : rsvpLimiter.allow [] ip t1 = (true, [(ip, [t1])]) := by
      rw [allow_of_all_in_window [] ip t1 [] rfl (by simp)]
      simp [rateLimitNum, setTimes]
    have l1 : lookupTimes [(ip, [t1])] ip = [t1] := by
      simp [lookupTimes]
    have a2 : rsvpLimiter.allow [(ip, [t1])] ip t2 = (true, [(ip, [t1, t2])]) := by
      rw [allow_of_all_in_window _ ip t2 [t1] l1 (by intro t ht; simp at ht; subst ht; omega)]
      simp [rateLimitNum, setTimes]
    have l2 : lookupTimes [(ip, [t1, t2])] ip = [t1, t2] := by
      simp [lookupTimes]
    have a3 : rsvpLimiter.allow [(ip, [t1, t2])] ip t3 = (true, [(ip, [t1, t2, t3])]) := by
      rw [allow_of_all_in_window _ ip t3 [t1, t2] l2
        (by intro t ht; simp at ht; rcases ht with h | h <;> subst h <;> omega)]
      simp [rateLimitNum, setTimes]
    have l3 : lookupTimes [(ip, [t1, t2, t3])] ip = [t1, t2, t3] := by
      simp [lookupTimes]
    have a4 : rsvpLimiter.allow [(ip, [t1, t2, t3])] ip t4 =
        (true, [(ip, [t1, t2, t3, t4])]) := by
      rw [allow_of_all_in_window _ ip t4 [t1, t2, t3] l3
        (by intro t ht; simp at ht; rcases ht with h | h | h <;> subst h <;> omega)]
      simp [rateLimitNum, setTimes]
    have l4 : lookupTimes [(ip, [t1, t2, t3, t4])] ip = [t1, t2, t3, t4] := by
      simp [lookupTimes]
    have a5 : rsvpLimiter.allow [(ip, [t1, t2, t3, t4])] ip t5 =
        (true, [(ip, [t1, t2, t3, t4, t5])]) := by
      rw [allow_of_all_in_window _ ip t5 [t1, t2, t3, t4] l4
        (by intro t ht; simp at ht; rcases ht with h | h | h | h <;> subst h <;> omega)]
      simp [rateLimitNum, setTimes]
    have l5 : lookupTimes [(ip, [t1, t2, t3, t4, t5])] ip = [t1, t2, t3, t4, t5] := by
      simp [lookupTimes]
    have a6 : rsvpLimiter.allow [(ip, [t1, t2, t3, t4, t5])] ip t6 =
        (false, [(ip, [t1, t2, t3, t4, t5])]) := by
      rw [allow_of_all_in_window _ ip t6 [t1, t2, t3, t4, t5] l5
        (by intro t ht; simp at ht; rcases ht with h | h | h | h | h <;> subst h <;> omega)]
      simp [rateLimitNum]
    simp only [allowSeq, a1, a2, a3, a4, a5, a6]

/-- C3 witness: six concrete calls within one window. -/
theorem rsvpLimiter_allow_spec_witness :
    allowSeq [] "k".toList [0, 10, 20, 30, 40, 50] =
      ([true, true, true, true, true, false], [("k".toList, [0, 10, 20, 30, 40])]) :=
  rsvpLimiter_allow_spec.2 "k".toList 0 10 20 30 40 50 (by decide) (by decide)
    (by decide) (by decide) (by decide) (by decide)

/-! The `/api/rsvp` handler: shared case analysis. -/

/-- Responses produced by the three field-validation checks. -/
def isValidationError : RsvpResponse → Bool
  | .nameError => true
  | .phoneError => true
  | .emailError => true
  | _ => false

/-- The disjunction of the three validation conditions the handler checks
(lines 456-473), with `len` as UTF-8 bytes, exactly as in the source. -/
def validationReject (req : RSVPRequest) : Prop :=
  (goTrim req.name = [] ∨ 200 < utf8Len (goTrim req.name)) ∨
  (normalizePhone (goTrim req.phone)).length < 10 ∨
  (goTrim req.email ≠ [] ∧
    (254 < utf8Len (goTrim req.email) ∨ ¬ (goTrim req.email).contains '@'))

instance validationRejectDecidable (req : RSVPRequest) : Decidable (validationReject req) := by
  unfold validationReject
  infer_instance

/-- Full case analysis of one handler run, shared by the claims about the
handler: validation errors happen exactly on `validationReject`, and each
of the four non-validation outcomes is characterized. -/
theorem handleRSVP_run (req : RSVPRequest) (tgEnabled : Bool) (limiter : LimiterMap)
    (ip : List Char) (now : Int) (atStr : List Char) (oOk aOk : Bool) :
    (isValidationError (handleRSVP req tgEnabled limiter ip now atStr oOk aOk).response = true
      ↔ validationReject req) ∧
    (validationReject req →
      (handleRSVP req tgEnabled limiter ip now atStr oOk aOk).limiter = limiter ∧
      (handleRSVP req tgEnabled limiter ip now atStr oOk aOk).organizerEmailAttempted = false ∧
      (handleRSVP req tgEnabled limiter ip now atStr oOk aOk).guestEmailAttempted = false ∧
      (handleRSVP req tgEnabled limiter ip now atStr oOk aOk).tgSaved = false ∧
      (handleRSVP req tgEnabled limiter ip now atStr oOk aOk).appended = none) ∧
    (¬ validationReject req → (rsvpLimiter.allow limiter ip now).1 = false →
      handleRSVP req tgEnabled limiter ip now atStr oOk aOk =
        ⟨.tooManyRequests, (rsvpLimiter.allow limiter ip now).2, false, false, false, none⟩) ∧
    (¬ validationReject req → (rsvpLimiter.allow limiter ip now).1 = true → oOk = false →
      handleRSVP req tgEnabled limiter ip now atStr oOk aOk =
        ⟨.sendFailed, (rsvpLimiter.allow limiter ip now).2, true, false, false, none⟩) ∧
    (¬ validationReject req → (rsvpLimiter.allow limiter ip now).1 = true → oOk = true →
      handleRSVP req tgEnabled limiter ip now atStr oOk aOk =
        ⟨.okResponse, (rsvpLimiter.allow limiter ip now).2, true, goTrim req.email ≠ [],
          tgEnabled ∧ req.telegramChatID.isSome,
          some ⟨goTrim req.name, goTrim req.phone, goTrim req.email,
            req.telegramChatID, atStr⟩⟩) := by
  unfold handleRSVP
  split
  case isTrue h1 =>
    exact ⟨iff_of_true rfl (Or.inl h1), fun _ => ⟨rfl, rfl, rfl, rfl, rfl⟩,
      fun hv => absurd (Or.inl h1) hv, fun hv => absurd (Or.inl h1) hv,
      fun hv => absurd (Or.inl h1) hv⟩
  case isFalse h1 =>
    split
    case isTrue h2 =>
      exact ⟨iff_of_true rfl (Or.inr (Or.inl h2)), fun _ => ⟨rfl, rfl, rfl, rfl, rfl⟩,
        fun hv => absurd (Or.inr (Or.inl h2)) hv, fun hv => absurd (Or.inr (Or.inl h2)) hv,
        fun hv => absurd (Or.inr (Or.inl h2)) hv⟩
    case isFalse h2 =>
      split
      case isTrue h3 =>
        exact ⟨iff_of_true rfl (Or.inr (Or.inr h3)), fun _ => ⟨rfl, rfl, rfl, rfl, rfl⟩,
          fun hv => absurd (Or.inr (Or.inr h3)) hv, fun hv => absurd (Or.inr (Or.inr h3)) hv,
          fun hv => absurd (Or.inr (Or.inr h3)) hv⟩
      case isFalse h3 =>
        have hv : ¬ validationReject req := fun h => h.elim h1 (fun h' => h'.elim h2 h3)
        split
        case isTrue h4 =>
          exact ⟨iff_of_false (fun hc => Bool.noConfusion hc) hv,
            fun h => absurd h hv,
            fun _ _ => rfl,
            fun _ ht _ => Bool.noConfusion (ht.symm.trans h4),
            fun _ ht _ => Bool.noConfusion (ht.symm.trans h4)⟩
        case isFalse h4 =>
          split
          case isTrue h5 =>
            exact ⟨iff_of_false (fun hc => Bool.noConfusion hc) hv,
              fun h => absurd h hv,
              fun _ hf => absurd hf h4,
              fun _ _ _ => rfl,
              fun _ _ hok => Bool.noConfusion (h5.symm.trans hok)⟩
          case isFalse h5 =>
            exact ⟨iff_of_false (fun hc => Bool.noConfusion hc) hv,
              fun h => absurd h hv,
              fun _ hf => absurd hf h4,
              fun _ _ hof => absurd hof h5,
              fun _ _ _ => rfl⟩

/-! Claim C9: validation characterization. -/

/-- Modelled from the spec's words for C9, with lengths counted in
characters as the claim states them (the source counts UTF-8 bytes). -/
def validationRejectSpecChars (name phone email : List Char) : Prop :=
  goTrim name = [] ∨ 200 < (goTrim name).length ∨
  (normalizePhone (goTrim phone)).length < 10 ∨
  (goTrim email ≠ [] ∧ (254 < (goTrim email).length ∨ ¬ (goTrim email).contains '@'))

instance validationRejectSpecCharsDecidable (name phone email : List Char) :
    Decidable (validationRejectSpecChars name phone email) := by
  unfold validationRejectSpecChars
  infer_instance

def c9name : List Char := List.replicate 101 'я'

def c9req : RSVPRequest := ⟨c9name, "+79991234567".toList, [], none⟩

/-- C9 counterexample: a 101-character Cyrillic name is 202 UTF-8 bytes, so
the handler rejects it as a validation error although the claim's
character-count conditions do not hold. -/
theorem validation_chars_counterexample :
    isValidationError (handleRSVP c9req false [] [] 0 [] true true).response = true ∧
    ¬ validationRejectSpecChars c9name ("+79991234567".toList) [] := by
  constructor
  · rfl
  · decide

/-- C9 amended: a decoded submission is rejected as a validation error iff
its trimmed name is empty or longer than 200 UTF-8 bytes, its phone keeps
fewer than 10 ASCII digits, or its non-empty trimmed email exceeds 254
UTF-8 bytes or lacks an at sign; every such rejection leaves the limiter
untouched, attempts no outbound dispatch, and mutates no store. -/
theorem validation_characterization (req : RSVPRequest) (tgEnabled : Bool)
    (limiter : LimiterMap) (ip : List Char) (now : Int) (atStr : List Char)
    (oOk aOk : Bool) :
    (isValidationError (handleRSVP req tgEnabled limiter ip now atStr oOk aOk).response = true
      ↔ validationReject req) ∧
    (isValidationError (handleRSVP req tgEnabled limiter ip now atStr oOk aOk).response = true →
      (handleRSVP req tgEnabled limiter ip now atStr oOk aOk).limiter = limiter ∧
      (handleRSVP req tgEnabled limiter ip now atStr oOk aOk).organizerEmailAttempted = false ∧
      (handleRSVP req tgEnabled limiter ip now atStr oOk aOk).guestEmailAttempted = false ∧
      (handleRSVP req tgEnabled limiter ip now atStr oOk aOk).tgSaved = false ∧
      (handleRSVP req tgEnabled limiter ip now atStr oOk aOk).appended = none) := by
  obtain ⟨hiff, hinv, _, _, _⟩ := handleRSVP_run req tgEnabled limiter ip now atStr oOk aOk
  exact ⟨hiff, fun hc => hinv (hiff.mp hc)⟩

/-- C9 witness: an empty name is rejected with no side effects. -/
theorem validation_characterization_witness :
    isValidationError (handleRSVP ⟨[], [], [], none⟩ false [] [] 0 [] true true).response
      = true ∧
    (handleRSVP ⟨[], [], [], none⟩ false [] [] 0 [] true true).appended = none := by
  have h := validation_characterization ⟨[], [], [], none⟩ false [] [] 0 [] true true
  have hval : validationReject ⟨[], [], [], none⟩ := Or.inl (Or.inl rfl)
  exact ⟨h.1.mpr hval, (h.2 (h.1.mpr hval)).2.2.2.2⟩

/-! Claim C8: the limiter is consulted only after validation. -/

def c8limiter : LimiterMap := [("ip".toList, [0, 0, 0, 0, 0])]

def c8badreq : RSVPRequest := ⟨[], "+79991234567".toList, [], none⟩

/-- C8 counterexample: the key has exhausted its quota (five timestamps
inside the window at time 1), yet a request with an empty name is answered
with the validation error, not the rate-limit rejection. -/
theorem rate_limit_not_first_counterexample :
    rateLimitNum ≤ ((lookupTimes c8limiter "ip".toList).filter
      (fun t => (1 : Int) - rateLimitWindow < t)).length ∧
    (handleRSVP c8badreq false c8limiter "ip".toList 1 [] true true).response = .nameError ∧
    RsvpResponse.nameError ≠ .tooManyRequests := by
  exact ⟨by decide, rfl, by decide⟩

/-- C8 amended: field validation runs before the rate limiter: a request
failing validation gets the validation rejection and the limiter state is
not consulted or updated; a request passing validation from a key whose
quota is exhausted gets the rate-limit rejection. -/
theorem validation_before_rate_limit (req : RSVPRequest) (tgEnabled : Bool)
    (limiter : LimiterMap) (ip : List Char) (now : Int) (atStr : List Char)
    (oOk aOk : Bool) :
    (validationReject req →
      isValidationError (handleRSVP req tgEnabled limiter ip now atStr oOk aOk).response
        = true ∧
      (handleRSVP req tgEnabled limiter ip now atStr oOk aOk).limiter = limiter) ∧
    (¬ validationReject req → (rsvpLimiter.allow limiter ip now).1 = false →
      (handleRSVP req tgEnabled limiter ip now atStr oOk aOk).response = .tooManyRequests) := by
  obtain ⟨hiff, hinv, hrej, _, _⟩ := handleRSVP_run req tgEnabled limiter ip now atStr oOk aOk
  refine ⟨fun h => ⟨hiff.mpr h, (hinv h).1⟩, fun hv hr => ?_⟩
  rw [hrej hv hr]

def c8goodreq : RSVPRequest := ⟨"A".toList, "+79991234567".toList, [], none⟩

/-- C8 witness: a valid request from the exhausted key is rate limited. -/
theorem validation_before_rate_limit_witness :
    (handleRSVP c8goodreq false c8limiter "ip".toList 1 [] true true).response
      = .tooManyRequests := by
  have h := validation_before_rate_limit c8goodreq false c8limiter "ip".toList 1 [] true true
  exact h.2 (by decide) (by decide)

/-! Claim C5: a failed durable append is not surfaced. -/

def c5req : RSVPRequest := ⟨"A".toList, "+79991234567".toList, [], none⟩

/-- C5 counterexample: a valid, admitted request whose durable append fails
(`appendOk = false`) is still answered with success; the append error is
discarded by `_ = store.append(...)` (line 573). -/
theorem append_failure_reported_as_success :
    (handleRSVP c5req false [] "ip".toList 0 [] true false).response = .okResponse := rfl

/-- C5 amended: for every submission that passes validation and rate
limiting and whose organizer notice succeeds, the handler reports success
and attempts the append with the submitted data, whatever the append
outcome: a failed durable append is never surfaced to the caller. -/
theorem append_outcome_ignored (req : RSVPRequest) (tgEnabled : Bool)
    (limiter : LimiterMap) (ip : List Char) (now : Int) (atStr : List Char)
    (hv : ¬ validationReject req) (ha : (rsvpLimiter.allow limiter ip now).1 = true)
    (appendOk : Bool) :
    (handleRSVP req tgEnabled limiter ip now atStr true appendOk).response = .okResponse ∧
    (handleRSVP req tgEnabled limiter ip now atStr true appendOk).appended =
      some ⟨goTrim req.name, goTrim req.phone, goTrim req.email,
        req.telegramChatID, atStr⟩ := by
  obtain ⟨_, _, _, _, hok⟩ := handleRSVP_run req tgEnabled limiter ip now atStr true appendOk
  rw [hok hv ha rfl]
  exact ⟨rfl, rfl⟩

/-- C5 witness: concrete run with a failing append still succeeds. -/
theorem append_outcome_ignored_witness :
    (handleRSVP ⟨" B ".toList, "89990000000".toList, [], none⟩ false [] "k".toList 0 [] true
      false).response = .okResponse ∧
    (handleRSVP ⟨" B ".toList, "89990000000".toList, [], none⟩ false [] "k".toList 0 [] true
      false).appended = some ⟨"B".toList, "89990000000".toList, [], none, []⟩ :=
  append_outcome_ignored ⟨" B ".toList, "89990000000".toList, [], none⟩ false [] "k".toList 0 []
    (by decide) (by decide) false

/-! Claim C6: cancellation by chat id. -/

def c6identity : tgUser := ⟨7, [], "X".toList⟩

def c6entry : storedRSVP := ⟨"G".toList, "xyz".toList, [], none, []⟩

/-- C6 counterexample: an identity IS registered for chat id 7 but its raw
phone is the empty string; the claim's "otherwise" branch requires removing
every entry whose normalized phone equals the identity's normalized phone
(here the entry qualifies: both normalize to the empty key), yet the code
returns with both stores untouched. -/
theorem cancel_found_identity_empty_phone_noop :
    (([c6identity] : List tgUser).find? (fun u => u.chatID == 7)).isSome = true ∧
    cancelRSVPByChatID (.good [c6entry]) (.good [c6identity]) 7 =
      .ok (.good [c6entry], .good [c6identity]) ∧
    normalizePhone c6entry.phone = normalizePhone c6identity.phone := by
  exact ⟨rfl, rfl, rfl⟩

/-- C6 amended: if no identity is registered for the chat id, or the found
identity's raw stored phone is the empty string, cancellation succeeds and
mutates neither store; otherwise it removes exactly the RSVP entries whose
normalized phone equals the found identity's normalized phone, preserves
the relative order of the remaining entries, and leaves the identity store
unchanged. -/
theorem cancel_by_chat_id_spec (users : List tgUser) (l : List storedRSVP) (chatID : Int) :
    (users.find? (fun u => u.chatID == chatID) = none →
      cancelRSVPByChatID (.good l) (.good users) chatID = .ok (.good l, .good users)) ∧
    (∀ u, users.find? (fun v => v.chatID == chatID) = some u →
      (u.phone = [] →
        cancelRSVPByChatID (.good l) (.good users) chatID = .ok (.good l, .good users)) ∧
      (u.phone ≠ [] →
        ∃ l', cancelRSVPByChatID (.good l) (.good users) chatID
            = .ok (.good l', .good users) ∧
          List.Sublist l' l ∧
          (∀ r, r ∈ l' ↔ r ∈ l ∧ normalizePhone r.phone ≠ normalizePhone u.phone))) := by
  constructor
  · intro hn
    simp [cancelRSVPByChatID, tgUserStore.list, tgUserStore.load, hn]
  · intro u hu
    constructor
    · intro hp
      simp [cancelRSVPByChatID, tgUserStore.list, tgUserStore.load, hu, hp]
    · intro hp
      refine ⟨l.filter (fun r => normalizePhone r.phone ≠ normalizePhone u.phone), ?_, ?_, ?_⟩
      · simp [cancelRSVPByChatID, tgUserStore.list, tgUserStore.load, hu, hp, fileList]
      · exact List.filter_sublist _
      · intro r
        simp [List.mem_filter]

def c6wuser : tgUser := ⟨5, "+79991234567".toList, "X".toList⟩

def c6wl : List storedRSVP :=
  [⟨"A".toList, "8 (999) 123-45-67".toList, [], none, []⟩,
   ⟨"B".toList, "+7 999 123 45 67".toList, [], none, []⟩]

/-- C6 witness: a concrete cancellation removing exactly the matching entry. -/
theorem cancel_by_chat_id_spec_witness :
    ∃ l', cancelRSVPByChatID (.good c6wl) (.good [c6wuser]) 5 = .ok (.good l', .good [c6wuser]) ∧
      List.Sublist l' c6wl ∧
      (∀ r, r ∈ l' ↔ r ∈ c6wl ∧ normalizePhone r.phone ≠ normalizePhone c6wuser.phone) :=
  ((cancel_by_chat_id_spec [c6wuser] c6wl 5).2 c6wuser rfl).2 (by decide)

/-! Claim C1: the reminder firing batch and its dedup fence. -/

theorem contains_of_mem {a : List Char} {xs : List (List Char)} (h : a ∈ xs) :
    xs.contains a = true := by
  simpa using h

theorem mem_of_contains {a : List Char} {xs : List (List Char)} (h : xs.contains a = true) :
    a ∈ xs := by
  simpa using h

theorem mem_batchToSend {l : List storedRSVP} {s : List (List Char)} {e : List Char} :
    e ∈ batchToSend l s ↔
      ∃ r, r ∈ l ∧ r.email = e ∧ normEmail e ≠ [] ∧ normEmail e ∉ s := by
  simp only [batchToSend, List.mem_map, List.mem_filter]
  constructor
  · rintro ⟨r, ⟨hrl, hp⟩, rfl⟩
    simp at hp
    exact ⟨r, hrl, rfl, hp.1, hp.2⟩
  · rintro ⟨r, hrl, rfl, hne, hc⟩
    exact ⟨r, ⟨hrl, by simp [hne, hc]⟩, rfl⟩

theorem addAux_mono (es : List (List Char)) (lst seen : List (List Char)) (x : List Char)
    (hx : x ∈ lst) : x ∈ addEmailsAux lst seen es := by
  induction es generalizing lst seen with
  | nil => exact hx
  | cons e rest ih =>
    unfold addEmailsAux
    split
    · exact ih _ _ (List.mem_append_left _ hx)
    · exact ih _ _ hx

theorem addAux_complete (es : List (List Char)) (lst seen : List (List Char))
    (hinv : ∀ x, x ∈ seen → ∃ z, z ∈ lst ∧ normEmail z = x) :
    ∀ e ∈ es, normEmail e ≠ [] →
      ∃ z, z ∈ addEmailsAux lst seen es ∧ normEmail z = normEmail e := by
  induction es generalizing lst seen with
  | nil =>
    intro e he
    cases he
  | cons e0 rest ih =>
    intro e he hne
    unfold addEmailsAux
    split
    case isTrue hcond =>
      rcases List.mem_cons.mp he with he0 | herest
      · subst he0
        exact ⟨normEmail e, addAux_mono _ _ _ _ (List.mem_append_right _ (by simp)),
          normEmail_idem e⟩
      · apply ih _ _ ?_ e herest hne
        intro x hx
        rcases List.mem_cons.mp hx with hx0 | hxs
        · subst hx0
          exact ⟨normEmail e0, List.mem_append_right _ (by simp), normEmail_idem e0⟩
        · obtain ⟨z, hz, hze⟩ := hinv x hxs
          exact ⟨z, List.mem_append_left _ hz, hze⟩
    case isFalse hcond =>
      rcases List.mem_cons.mp he with he0 | herest
      · subst he0
        have hs : normEmail e ∈ seen := by
          by_contra hc
          exact hcond ⟨hne, by simpa using hc⟩
        obtain ⟨z, hz, hze⟩ := hinv _ hs
        exact ⟨z, addAux_mono _ _ _ _ hz, hze⟩
      · exact ih _ _ hinv e herest hne

theorem batchToSend_cons_pos {r : storedRSVP} {t : List storedRSVP} {s : List (List Char)}
    (h1 : normEmail r.email ≠ []) (h2 : normEmail r.email ∉ s) :
    batchToSend (r :: t) s = r.email :: batchToSend t s := by
  simp only [batchToSend, List.filter_cons]
  rw [if_pos (by simp [h1, h2])]
  simp

theorem batchToSend_cons_neg {r : storedRSVP} {t : List storedRSVP} {s : List (List Char)}
    (h : ¬ (normEmail r.email ≠ [] ∧ normEmail r.email ∉ s)) :
    batchToSend (r :: t) s = batchToSend t s := by
  simp only [batchToSend, List.filter_cons]
  rw [if_neg (by simpa using h)]

theorem countAddr_batch_of_mem (l : List storedRSVP) (s : List (List Char)) (a : List Char)
    (hc : a ∈ s) : countAddr (batchToSend l s) a = 0 := by
  induction l with
  | nil => rfl
  | cons r t ih =>
    by_cases hq : normEmail r.email ≠ [] ∧ normEmail r.email ∉ s
    · rw [batchToSend_cons_pos hq.1 hq.2]
      unfold countAddr
      rw [List.filter_cons, if_neg (by simp; intro h; rw [h] at hq; exact hq.2 hc)]
      exact ih
    · rw [batchToSend_cons_neg hq]
      exact ih

theorem countAddr_batch_of_not_mem (l : List storedRSVP) (s : List (List Char)) (a : List Char)
    (ha : a ≠ []) (hc : a ∉ s) :
    countAddr (batchToSend l s) a = (l.filter (fun r => normEmail r.email == a)).length := by
  induction l with
  | nil => rfl
  | cons r t ih =>
    by_cases hm : normEmail r.email = a
    · rw [batchToSend_cons_pos (by rw [hm]; exact ha) (by rw [hm]; exact hc)]
      unfold countAddr
      rw [List.filter_cons, if_pos (by simp [hm]), List.filter_cons, if_pos (by simp [hm])]
      simp only [List.length_cons]
      have hx : (List.filter (fun e => normEmail e == a) (batchToSend t s)).length =
          (List.filter (fun r => normEmail r.email == a) t).length := ih
      rw [hx]
    · have hskip : List.filter (fun r' => normEmail r'.email == a) (r :: t) =
          List.filter (fun r' => normEmail r'.email == a) t := by
        rw [List.filter_cons, if_neg (by simp [hm])]
      by_cases hq : normEmail r.email ≠ [] ∧ normEmail r.email ∉ s
      · rw [batchToSend_cons_pos hq.1 hq.2]
        unfold countAddr
        rw [List.filter_cons, if_neg (by simp [hm]), hskip]
        exact ih
      · rw [batchToSend_cons_neg hq, hskip]
        exact ih

theorem countAddr_batchToSend (l : List storedRSVP) (s : List (List Char)) (a : List Char)
    (ha : a ≠ []) :
    countAddr (batchToSend l s) a =
      if a ∈ s then 0 else (l.filter (fun r => normEmail r.email == a)).length := by
  by_cases hc : a ∈ s
  · rw [if_pos hc]
    exact countAddr_batch_of_mem l s a hc
  · rw [if_neg hc]
    exact countAddr_batch_of_not_mem l s a ha hc

theorem sentList_eq (sentF : JsonFile (List (List Char))) (s : List (List Char))
    (h : reminderSentStore.list sentF = .ok s) : s = (fileList sentF).map normEmail := by
  cases sentF with
  | absent =>
    simp only [reminderSentStore.list, Except.ok.injEq] at h
    simp [fileList, ← h]
  | corrupt => simp [reminderSentStore.list] at h
  | good l0 =>
    simp only [reminderSentStore.list, Except.ok.injEq] at h
    simp [fileList, ← h]

theorem firingBatch_eq (rsvpF : JsonFile (List storedRSVP))
    (sentF : JsonFile (List (List Char))) (l : List storedRSVP) (s : List (List Char))
    (h1 : rsvpStore.list rsvpF = .ok l) (h2 : reminderSentStore.list sentF = .ok s) :
    firingBatch rsvpF sentF = some (batchToSend l s,
      if batchToSend l s = [] then sentF
      else .good (addEmailsAux (fileList sentF) ((fileList sentF).map normEmail)
        (batchToSend l s))) := by
  unfold firingBatch
  rw [h1, h2]
  simp only [reminderSentStore.add, Option.some.injEq]
  congr 1
  by_cases hE : batchToSend l s = []
  · simp [hE]
  · simp [hE, List.isEmpty_iff]

theorem countAddr_eq_zero_of_none {ds : List (List Char)} {a : List Char}
    (h : ∀ e ∈ ds, normEmail e ≠ a) : countAddr ds a = 0 := by
  unfold countAddr
  rw [List.length_eq_zero, List.filter_eq_nil_iff]
  intro e he
  simp
  exact h e he

theorem length_filter_le_one_of_nodup (l : List storedRSVP) (a : List Char)
    (hnd : (l.map (fun r => normEmail r.email)).Nodup) :
    (l.filter (fun r => normEmail r.email == a)).length ≤ 1 := by
  induction l with
  | nil => simp
  | cons r t ih =>
    simp only [List.map_cons, List.nodup_cons] at hnd
    rw [List.filter_cons]
    by_cases hm : normEmail r.email = a
    · rw [if_pos (by simp [hm])]
      simp only [List.length_cons]
      have hz : (t.filter (fun r' => normEmail r'.email == a)).length = 0 := by
        rw [List.length_eq_zero, List.filter_eq_nil_iff]
        intro x hx
        simp
        intro hxa
        apply hnd.1
        have hmem : a ∈ t.map (fun r' => normEmail r'.email) := by
          rw [← hxa]
          exact List.mem_map.mpr ⟨x, hx, rfl⟩
        rw [hm]
        exact hmem
      omega
    · rw [if_neg (by simp [hm])]
      exact ih hnd.2

/-- C1 amended: one firing batch dispatches one reminder per qualifying
entry (so an address occurring in `k` entries receives `k` emails in that
run, counted by `countAddr`), afterwards every attempted address is in the
persisted sent-set, and a second run against the same RSVP list dispatches
nothing at all; hence when no two entries share a normalized email, at most
one reminder per address is dispatched across both runs. -/
theorem reminder_firing_batch_twice (rsvpF : JsonFile (List storedRSVP))
    (sentF : JsonFile (List (List Char))) (l : List storedRSVP) (s : List (List Char))
    (h1 : rsvpStore.list rsvpF = .ok l) (h2 : reminderSentStore.list sentF = .ok s) :
    ∃ d1 F1 d2 F2,
      firingBatch rsvpF sentF = some (d1, F1) ∧
      firingBatch rsvpF F1 = some (d2, F2) ∧
      (∀ e ∈ d1, normEmail e ≠ [] ∧ normEmail e ∉ s) ∧
      (∀ a, a ≠ [] →
        countAddr d1 a =
          if a ∈ s then 0 else (l.filter (fun r => normEmail r.email == a)).length) ∧
      (∃ s1, reminderSentStore.list F1 = .ok s1 ∧ ∀ e ∈ d1, normEmail e ∈ s1) ∧
      d2 = [] ∧
      ((l.map (fun r => normEmail r.email)).Nodup → ∀ a, countAddr (d1 ++ d2) a ≤ 1) := by
  have hsl : s = (fileList sentF).map normEmail := sentList_eq sentF s h2
  have hsound : ∀ e ∈ batchToSend l s, normEmail e ≠ [] ∧ normEmail e ∉ s := by
    intro e he
    obtain ⟨r, _, _, hne, hns⟩ := mem_batchToSend.mp he
    exact ⟨hne, hns⟩
  have hcount : ∀ a, a ≠ [] →
      countAddr (batchToSend l s) a =
        if a ∈ s then 0 else (l.filter (fun r => normEmail r.email == a)).length :=
    fun a ha => countAddr_batchToSend l s a ha
  have hfinal : (l.map (fun r => normEmail r.email)).Nodup →
      ∀ a, countAddr (batchToSend l s ++ ([] : List (List Char))) a ≤ 1 := by
    intro hnd a
    rw [List.append_nil]
    by_cases ha : a = []
    · subst ha
      rw [countAddr_eq_zero_of_none (fun e he => (hsound e he).1)]
      omega
    · rw [hcount a ha]
      by_cases hs : a ∈ s
      · simp [hs]
      · rw [if_neg hs]
        exact length_filter_le_one_of_nodup l a hnd
  by_cases hE : batchToSend l s = []
  · refine ⟨batchToSend l s, sentF, batchToSend l s, sentF, ?_, ?_, hsound, hcount, ?_, hE, ?_⟩
    · rw [firingBatch_eq rsvpF sentF l s h1 h2, if_pos hE]
    · rw [firingBatch_eq rsvpF sentF l s h1 h2, if_pos hE]
    · exact ⟨s, h2, fun e he => absurd he (by simp [hE])⟩
    · rw [hE] at hfinal ⊢
      exact hfinal
  · have hres : reminderSentStore.list
        (.good (addEmailsAux (fileList sentF) ((fileList sentF).map normEmail)
          (batchToSend l s))) =
        .ok ((addEmailsAux (fileList sentF) ((fileList sentF).map normEmail)
          (batchToSend l s)).map normEmail) := rfl
    have hinv0 : ∀ x, x ∈ (fileList sentF).map normEmail →
        ∃ z, z ∈ fileList sentF ∧ normEmail z = x := by
      intro x hx
      obtain ⟨z, hz, rfl⟩ := List.mem_map.mp hx
      exact ⟨z, hz, rfl⟩
    have hadded : ∀ e ∈ batchToSend l s,
        normEmail e ∈ (addEmailsAux (fileList sentF) ((fileList sentF).map normEmail)
          (batchToSend l s)).map normEmail := by
      intro e he
      obtain ⟨z, hz, hze⟩ :=
        addAux_complete (batchToSend l s) (fileList sentF) ((fileList sentF).map normEmail)
          hinv0 e he (hsound e he).1
      exact List.mem_map.mpr ⟨z, hz, hze⟩
    have hold : ∀ x ∈ s,
        x ∈ (addEmailsAux (fileList sentF) ((fileList sentF).map normEmail)
          (batchToSend l s)).map normEmail := by
      intro x hx
      rw [hsl] at hx
      obtain ⟨z, hz, rfl⟩ := List.mem_map.mp hx
      exact List.mem_map.mpr ⟨z, addAux_mono _ _ _ _ hz, rfl⟩
    have hd2 : batchToSend l
        ((addEmailsAux (fileList sentF) ((fileList sentF).map normEmail)
          (batchToSend l s)).map normEmail) = [] := by
      rw [List.eq_nil_iff_forall_not_mem]
      intro e he
      obtain ⟨r, hrl, hre, hne, hns⟩ := mem_batchToSend.mp he
      by_cases hos : normEmail e ∈ s
      · exact hns (hold _ hos)
      · exact hns (hadded e (mem_batchToSend.mpr ⟨r, hrl, hre, hne, hos⟩))
    refine ⟨batchToSend l s,
      .good (addEmailsAux (fileList sentF) ((fileList sentF).map normEmail)
        (batchToSend l s)),
      [],
      .good (addEmailsAux (fileList sentF) ((fileList sentF).map normEmail)
        (batchToSend l s)),
      ?_, ?_, hsound, hcount, ?_, rfl, ?_⟩
    · rw [firingBatch_eq rsvpF sentF l s h1 h2, if_neg hE]
    · rw [firingBatch_eq rsvpF _ l _ h1 hres, hd2]
      simp
    · exact ⟨_, hres, hadded⟩
    · exact hfinal

def c1entry1 : storedRSVP := ⟨"A".toList, "1".toList, "a@b".toList, none, []⟩

def c1entry2 : storedRSVP := ⟨"B".toList, "2".toList, "a@b".toList, none, []⟩

def c1run1 : Option (List (List Char) × JsonFile (List (List Char))) :=
  firingBatch (.good [c1entry1, c1entry2]) .absent

def c1run2 : Option (List (List Char) × JsonFile (List (List Char))) :=
  match c1run1 with
  | some (_, f1) => firingBatch (.good [c1entry1, c1entry2]) f1
  | none => none

def c1total : List (List Char) :=
  (c1run1.map (fun p => p.1)).getD [] ++ (c1run2.map (fun p => p.1)).getD []

/-- C1 counterexample: with two RSVP entries sharing the email `a@b` and an
empty sent-set, the first firing batch already dispatches two reminders to
that address (the sent-set fences only across runs, not within one), so
across the two sequential runs more than one reminder per address is
dispatched, refuting the claim's "at most one reminder per address". -/
theorem reminder_double_dispatch_counterexample :
    1 < countAddr c1total ("a@b".toList) := by decide

/-- C1 witness: a concrete two-run execution of the firing batch. -/
theorem reminder_firing_batch_twice_witness :
    ∃ d1 F1 d2 F2,
      firingBatch (.good [c1entry1]) .absent = some (d1, F1) ∧
      firingBatch (.good [c1entry1]) F1 = some (d2, F2) ∧
      (∀ e ∈ d1, normEmail e ≠ [] ∧ normEmail e ∉ ([] : List (List Char))) ∧
      (∀ a, a ≠ [] → countAddr d1 a = if a ∈ ([] : List (List Char)) then 0
        else ([c1entry1].filter (fun r => normEmail r.email == a)).length) ∧
      (∃ s1, reminderSentStore.list F1 = .ok s1 ∧ ∀ e ∈ d1, normEmail e ∈ s1) ∧
      d2 = [] ∧
      (([c1entry1].map (fun r => normEmail r.email)).Nodup →
        ∀ a, countAddr (d1 ++ d2) a ≤ 1) :=
  reminder_firing_batch_twice (.good [c1entry1]) .absent [c1entry1] [] rfl rfl
